import Mathlib

/-!
Shallow embedding of the `token-mints` Solana program
(`src/lib.rs` and `src/token.rs`).

Addresses (`Pubkey`) are modelled as natural numbers (the 32-byte key
value read little-endian); account data is a list of bytes (naturals,
meaningful when each is `< 256`); `u64` values are naturals with
overflow taken mod `2^64` exactly where the Rust code can overflow.

Handlers are modelled as functions returning the ordered trace of
external calls issued (cross-program invocations) together with the
outcome (`none` = success, `some e` = typed failure), threading an
oracle for the result of each external call, an oracle for
`Pubkey::create_program_address` (which can fail), a total function for
the associated-token-account address derivation, and the rent minimum
balance, since these are host-runtime facilities the program only
consumes.
-/

namespace TokenMints

/-- The subset of `solana_program::program_error::ProgramError` values this
program can produce or observe.  `IncorrectProgramId` is the
wrong-owning-program failure (the spec's `UnexpectedOwner`); it is included
so we can state that the burn handler never produces it. -/
inductive ProgramError where
  | NotEnoughAccountKeys
  | MissingRequiredSignature
  | InvalidAccountData
  | InvalidSeeds
  | InvalidArgument
  | InvalidInstructionData
  | UninitializedAccount
  | IncorrectProgramId
  deriving DecidableEq, Repr

/-- Caller-supplied account handle: `solana_program::account_info::AccountInfo`,
restricted to the fields this program reads (`key`, `is_signer`,
`is_writable`, the owning program `owner`, and the account `data` bytes). -/
structure AccountInfo where
  key : Nat
  is_signer : Bool
  is_writable : Bool
  owner : Nat
  data : List Nat
  deriving DecidableEq, Repr

/-- The shapes of instructions this program builds for external programs:
the system-program account allocation, spl-token `initialize_mint2`
(named `initMint2` here), the associated-token-account idempotent create,
and spl-token `burn_checked`. Each shape records exactly the fields the
corresponding Rust builder receives. -/
inductive CallShape where
  | createAccount (src dst : Nat) (lamports space ownerProg : Nat)
  | initMint2 (tokenProg mint authority : Nat) (decimals : Nat)
  | createAtaIdempotent (payer owner mint tokenProg : Nat)
  | burnChecked (tokenProg account mint authority : Nat) (amount : Nat) (decimals : Nat)
  deriving DecidableEq, Repr

/-- One forwarded external call: the instruction shape plus the signer
seeds attached by `invoke_signed` (`invoke` attaches none, i.e. `[]`). -/
structure ExtCall where
  shape : CallShape
  seeds : List (List Nat)
  deriving DecidableEq, Repr

/-- Outcome of a handler: the ordered external calls issued, and `none` on
success or `some e` on the typed failure `e`. -/
abbrev HandlerResult := List ExtCall × Option ProgramError

/-- Oracle for the outcome of each forwarded external call (`invoke` /
`invoke_signed`): `none` = the external program succeeded. -/
abbrev Invoker := ExtCall → Option ProgramError

/-- Oracle for `Pubkey::create_program_address seeds program_id`:
`none` models the (rare) derivation failure. -/
abbrev Cpa := List (List Nat) → Nat → Option Nat

/-- Total function modelling
`get_associated_token_address_with_program_id owner mint token_program`. -/
abbrev AtaDerive := Nat → Nat → Nat → Nat

/-- The fixed identity of the external spl-token program (`spl_token::id()`,
the Tokenkeg… address).  Its concrete 32-byte value is irrelevant to every
claim; it is modelled as a fixed distinguished constant. -/
def spl_token_id : Nat := 1296385986

/-- Little-endian value of a byte list (how a `Pubkey` / `u64` field is read
out of account data). -/
def leNat : List Nat → Nat
  | [] => 0
  | b :: bs => b + 256 * leNat bs

/-- The `len` little-endian bytes of `v` (serialization direction). -/
def natLeBytes : Nat → Nat → List Nat
  | 0, _ => []
  | n + 1, v => v % 256 :: natLeBytes n (v / 256)

/-- Value of `spl_token::state::Mint::LEN`. -/
def splMintLen : Nat := 82

/-- Value of `spl_token::state::Account::LEN`. -/
def splAccountLen : Nat := 165

/-- The fields of `spl_token::state::Account` this program consumes
(`mint`, `owner`); the remaining fields of the 165-byte layout are
validated during unpacking but not read afterwards. -/
structure SplAccount where
  mint : Nat
  owner : Nat
  deriving DecidableEq, Repr

/-- The field of `spl_token::state::Mint` this program consumes
(`decimals`); the rest of the 82-byte layout is validated during
unpacking but not read afterwards. -/
structure SplMint where
  decimals : Nat
  deriving DecidableEq, Repr

/-- Bytes `off .. off+len` of account data. -/
def readBytes (d : List Nat) (off len : Nat) : List Nat :=
  (d.drop off).take len

/-- A 32-byte `Pubkey` field at offset `off`. -/
def pubkeyAt (d : List Nat) (off : Nat) : Nat :=
  leNat (readBytes d off 32)

/-- A 4-byte `COption` tag at offset `off`, read as a little-endian `u32`;
valid exactly when it is `0` or `1`. -/
def coptionTagAt (d : List Nat) (off : Nat) : Nat :=
  leNat (readBytes d off 4)

/-- Model of `spl_token::state::Account::unpack`: length must be exactly 165; the
`delegate` tag (offset 72), `is_native` tag (offset 109) and
`close_authority` tag (offset 129) must be valid `COption` tags; the
`state` byte (offset 108) must encode a valid `AccountState`; finally
`Pack::unpack` rejects `state = Uninitialized (0)`. -/
def SplAccount.unpack (d : List Nat) : Except ProgramError SplAccount :=
  if d.length = splAccountLen then
    if coptionTagAt d 72 ≤ 1 ∧ d.getD 108 0 ≤ 2 ∧
        coptionTagAt d 109 ≤ 1 ∧ coptionTagAt d 129 ≤ 1 then
      if d.getD 108 0 = 0 then .error .UninitializedAccount
      else .ok { mint := pubkeyAt d 0, owner := pubkeyAt d 32 }
    else .error .InvalidAccountData
  else .error .InvalidAccountData

/-- Model of `spl_token::state::Mint::unpack`: length must be exactly 82; the
`mint_authority` tag (offset 0) and `freeze_authority` tag (offset 46)
must be valid `COption` tags; the `is_initialized` byte (offset 45) must
be `0` or `1`; finally `Pack::unpack` rejects `is_initialized = 0`.
`decimals` is the byte at offset 44. -/
def SplMint.unpack (d : List Nat) : Except ProgramError SplMint :=
  if d.length = splMintLen then
    if coptionTagAt d 0 ≤ 1 ∧ d.getD 45 0 ≤ 1 ∧ coptionTagAt d 46 ≤ 1 then
      if d.getD 45 0 = 0 then .error .UninitializedAccount
      else .ok { decimals := d.getD 44 0 }
    else .error .InvalidAccountData
  else .error .InvalidAccountData

/-- The instruction enum `Ix` of `src/lib.rs` (`mint_authority` is a
32-byte `Pubkey`, `decimals` and `bump` are `u8`, `amount_ui` is `u64`). -/
inductive Ix where
  | CreateAndInitMint (mint_authority : Nat) (decimals : Nat) (bump : Nat)
  | CreateAtaFor
  | BurnUserTokens (amount_ui : Nat)
  deriving DecidableEq, Repr

/-- Field-range well-formedness of an `Ix` value as a Rust value:
`Pubkey` is 32 bytes, `u8 < 2^8`, `u64 < 2^64`. -/
def Ix.WF : Ix → Prop
  | .CreateAndInitMint a d b => a < 256 ^ 32 ∧ d < 256 ∧ b < 256
  | .CreateAtaFor => True
  | .BurnUserTokens amt => amt < 2 ^ 64

instance : DecidablePred Ix.WF := by
  intro ix
  cases ix <;> simp only [Ix.WF] <;> infer_instance

/-- Borsh serialization of `Ix` (`Ix::pack`): a one-byte variant
discriminant followed by the fixed-layout little-endian fields. -/
def Ix.pack : Ix → List Nat
  | .CreateAndInitMint a d b =>
    0 :: (natLeBytes 32 a ++ (natLeBytes 1 d ++ natLeBytes 1 b))
  | .CreateAtaFor => [1]
  | .BurnUserTokens amt => 2 :: natLeBytes 8 amt

/-- Borsh's sequential read of an `n`-byte little-endian field: consumes
exactly `n` bytes or fails (`n = 32` for `Pubkey`, `1` for `u8`, `8` for
`u64`). -/
def readLe (n : Nat) (bs : List Nat) : Except ProgramError (Nat × List Nat) :=
  if n ≤ bs.length then .ok (leNat (bs.take n), bs.drop n)
  else .error .InvalidInstructionData

/-- Borsh deserialization of `Ix` (`Ix::unpack`, i.e.
`try_from_slice(..).map_err(|_| ProgramError::InvalidInstructionData)`):
a one-byte variant discriminant followed by the variant's fixed-layout
fields.  An unknown discriminant, a truncated payload, or trailing bytes
all fail with `InvalidInstructionData` (borsh's `try_from_slice` requires
the input to be consumed exactly). -/
def Ix.unpack (input : List Nat) : Except ProgramError Ix :=
  match input with
  | [] => .error .InvalidInstructionData
  | tag :: rest =>
    if tag = 0 then
      match readLe 32 rest with
      | .error e => .error e
      | .ok (a, r1) =>
        match readLe 1 r1 with
        | .error e => .error e
        | .ok (d, r2) =>
          match readLe 1 r2 with
          | .error e => .error e
          | .ok (b, r3) =>
            if r3 = [] then .ok (.CreateAndInitMint a d b)
            else .error .InvalidInstructionData
    else if tag = 1 then
      if rest = [] then .ok .CreateAtaFor else .error .InvalidInstructionData
    else if tag = 2 then
      match readLe 8 rest with
      | .error e => .error e
      | .ok (amt, r1) =>
        if r1 = [] then .ok (.BurnUserTokens amt)
        else .error .InvalidInstructionData
    else .error .InvalidInstructionData

/-- Handler `token::create_and_init_mint`.  Fetches payer, mint, system-program and
token-program handles in order; requires payer signer, mint writable, and
the mint key equal to `create_program_address mint_seeds program_id`
(failure of the derivation itself maps to `InvalidSeeds`); then issues a
seed-signed system `create_account` for `Mint::LEN` bytes owned by the
spl-token program, followed by an unsigned `initialize_mint2`
(`initMint2`).  `rent_min` is `Rent::get()?.minimum_balance(Mint::LEN)`. -/
def create_and_init_mint (ext : Invoker) (cpa : Cpa) (rent_min : Nat)
    (program_id : Nat) (accounts : List AccountInfo)
    (mint_authority : Nat) (mint_seeds : List (List Nat))
    (token_decimals : Nat) : HandlerResult :=
  match accounts with
  | payer :: token_mint :: _system_program :: _token_program :: _ =>
    if !payer.is_signer then ([], some .MissingRequiredSignature)
    else if !token_mint.is_writable then ([], some .InvalidAccountData)
    else
      match cpa mint_seeds program_id with
      | none => ([], some .InvalidSeeds)
      | some expected =>
        if token_mint.key ≠ expected then ([], some .InvalidSeeds)
        else
          let c1 : ExtCall :=
            { shape := .createAccount payer.key token_mint.key rent_min
                splMintLen spl_token_id,
              seeds := mint_seeds }
          match ext c1 with
          | some e => ([c1], some e)
          | none =>
            let c2 : ExtCall :=
              { shape := .initMint2 spl_token_id token_mint.key
                  mint_authority token_decimals,
                seeds := [] }
            ([c1, c2], ext c2)
  | _ => ([], some .NotEnoughAccountKeys)

/-- Handler `token::create_ata_for`.  Fetches payer, owner, ata, mint,
token-program and system-program handles in order; requires the supplied
ata key to equal the derived associated-token address (checked before the
payer-signer requirement); then issues the single idempotent
associated-token-account create call. -/
def create_ata_for (ext : Invoker) (ataDerive : AtaDerive)
    (accounts : List AccountInfo) : HandlerResult :=
  match accounts with
  | payer :: owner :: ata_acc :: token_mint :: _token_program :: _system_program :: _ =>
    let expected_ata := ataDerive owner.key token_mint.key spl_token_id
    if ata_acc.key ≠ expected_ata then ([], some .InvalidArgument)
    else if !payer.is_signer then ([], some .MissingRequiredSignature)
    else
      let c : ExtCall :=
        { shape := .createAtaIdempotent payer.key owner.key token_mint.key
            spl_token_id,
          seeds := [] }
      ([c], ext c)
  | _ => ([], some .NotEnoughAccountKeys)

/-- Model of `10u64.pow(d)` under Rust release-profile semantics: repeated
wrapping multiplication, i.e. `10^d mod 2^64`. -/
def pow10u64 (d : Nat) : Nat := 10 ^ d % 2 ^ 64

/-- Model of `a.checked_mul(b)` on `u64`: `none` exactly when the
product of the two `u64` operands exceeds `u64::MAX`. -/
def checked_mul_u64 (a b : Nat) : Option Nat :=
  if a * b < 2 ^ 64 then some (a * b) else none

/-- Handler `token::burn_user_tokens`.  Fetches only mint, owner and token-account
handles (the documented fourth, token-program, handle is never fetched);
requires owner signer; unpacks the token account and requires its
mint/owner links to match the supplied handles; unpacks the mint for
`decimals`; converts `amount_ui` to base units via
`checked_mul(10u64.pow(decimals))`; then issues one `burn_checked` call. -/
def burn_user_tokens (ext : Invoker) (accounts : List AccountInfo)
    (amount_ui : Nat) : HandlerResult :=
  match accounts with
  | mint_account :: owner_account :: ata_token_acc :: _ =>
    if !owner_account.is_signer then ([], some .MissingRequiredSignature)
    else
      match SplAccount.unpack ata_token_acc.data with
      | .error e => ([], some e)
      | .ok token_account =>
        if token_account.mint ≠ mint_account.key ∨
            token_account.owner ≠ owner_account.key then
          ([], some .InvalidAccountData)
        else
          match SplMint.unpack mint_account.data with
          | .error e => ([], some e)
          | .ok mint =>
            let decimals := mint.decimals
            match checked_mul_u64 amount_ui (pow10u64 decimals) with
            | none => ([], some .InvalidArgument)
            | some amount_base =>
              let c : ExtCall :=
                { shape := .burnChecked spl_token_id ata_token_acc.key
                    mint_account.key owner_account.key amount_base decimals,
                  seeds := [] }
              ([c], ext c)
  | _ => ([], some .NotEnoughAccountKeys)

/-- The `"MINT"` seed tag as bytes. -/
def mintTag : List Nat := [77, 73, 78, 84]

/-- Entry point `process_instruction` of `src/lib.rs`: decode the instruction data
with borsh (failing `InvalidInstructionData` on any malformed input,
before any account handle is read), then dispatch to the matching
handler; `CreateAndInitMint` is dispatched with seeds
`[b"MINT", [bump]]`. -/
def process_instruction (ext : Invoker) (cpa : Cpa)
    (ataDerive : AtaDerive) (rent_min : Nat) (program_id : Nat)
    (accounts : List AccountInfo) (data : List Nat) : HandlerResult :=
  match Ix.unpack data with
  | .error e => ([], some e)
  | .ok (.CreateAndInitMint mint_authority decimals bump) =>
    create_and_init_mint ext cpa rent_min program_id accounts
      mint_authority [mintTag, [bump]] decimals
  | .ok .CreateAtaFor => create_ata_for ext ataDerive accounts
  | .ok (.BurnUserTokens amount_ui) => burn_user_tokens ext accounts amount_ui

/-- Concrete well-formed `spl_token::state::Account` data (165 bytes):
mint-link, owner-link, zero amount, no delegate, `Initialized` state,
not native, zero delegated amount, no close authority.  Mirrors the
account layout the integration tests decode. -/
def mkAtaData (mintKey ownerKey : Nat) : List Nat :=
  natLeBytes 32 mintKey ++ natLeBytes 32 ownerKey ++ natLeBytes 8 0 ++
    natLeBytes 4 0 ++ natLeBytes 32 0 ++ [1] ++ natLeBytes 4 0 ++
    natLeBytes 8 0 ++ natLeBytes 8 0 ++ natLeBytes 4 0 ++ natLeBytes 32 0

/-- Concrete well-formed `spl_token::state::Mint` data (82 bytes):
some mint authority, zero supply, given decimals, initialized, no freeze
authority. -/
def mkMintData (authority decimals : Nat) : List Nat :=
  natLeBytes 4 1 ++ natLeBytes 32 authority ++ natLeBytes 8 0 ++
    [decimals, 1] ++ natLeBytes 4 0 ++ natLeBytes 32 0

theorem natLeBytes_length (n v : Nat) : (natLeBytes n v).length = n := by
  induction n generalizing v with
  | zero => rfl
  | succ n ih => simp [natLeBytes, ih]

theorem leNat_lt (bs : List Nat) (h : ∀ b ∈ bs, b < 256) :
    leNat bs < 256 ^ bs.length := by
  induction bs with
  | nil => simp [leNat]
  | cons b t ih =>
    have hb : b < 256 := h b (by simp)
    have ht : leNat t < 256 ^ t.length := ih fun x hx => h x (by simp [hx])
    have h1 : leNat t + 1 ≤ 256 ^ t.length := ht
    calc b + 256 * leNat t < 256 * (leNat t + 1) := by omega
      _ ≤ 256 * 256 ^ t.length := Nat.mul_le_mul_left 256 h1
      _ = 256 ^ (t.length + 1) := by rw [pow_succ]; ring

theorem natLeBytes_leNat (bs : List Nat) (h : ∀ b ∈ bs, b < 256) :
    natLeBytes bs.length (leNat bs) = bs := by
  induction bs with
  | nil => rfl
  | cons b t ih =>
    have hb : b < 256 := h b (by simp)
    have hmod : (b + 256 * leNat t) % 256 = b := by
      rw [Nat.add_mul_mod_self_left, Nat.mod_eq_of_lt hb]
    have hdiv : (b + 256 * leNat t) / 256 = leNat t := by
      rw [Nat.add_mul_div_left _ _ (by norm_num : 0 < 256),
        Nat.div_eq_of_lt hb, Nat.zero_add]
    simp only [List.length_cons, natLeBytes, leNat, hmod, hdiv]
    rw [ih fun x hx => h x (by simp [hx])]

theorem readLe_ok {n : Nat} {bs : List Nat} {v : Nat} {r : List Nat}
    (hb : ∀ b ∈ bs, b < 256) (h : readLe n bs = .ok (v, r)) :
    v < 256 ^ n ∧ bs = natLeBytes n v ++ r ∧ ∀ b ∈ r, b < 256 := by
  unfold readLe at h
  split_ifs at h with hn
  · cases h
    have htl : (bs.take n).length = n := by
      rw [List.length_take]; omega
    have htb : ∀ b ∈ bs.take n, b < 256 := fun b hbm =>
      hb b (List.take_subset n bs hbm)
    refine ⟨?_, ?_, ?_⟩
    · have := leNat_lt (bs.take n) htb
      rwa [htl] at this
    · have := natLeBytes_leNat (bs.take n) htb
      rw [htl] at this
      rw [this, List.take_append_drop]
    · exact fun b hbm => hb b (List.drop_subset n bs hbm)

theorem readLe_error {n : Nat} {bs : List Nat} {e : ProgramError}
    (h : readLe n bs = .error e) : e = .InvalidInstructionData := by
  unfold readLe at h
  split_ifs at h
  cases h
  rfl

/-- Any successfully decoded instruction is well-formed and re-serializes
to exactly the input: decode accepts only exact encodings. -/
theorem Ix.unpack_ok {input : List Nat} {ix : Ix}
    (hb : ∀ b ∈ input, b < 256) (h : Ix.unpack input = .ok ix) :
    ix.WF ∧ ix.pack = input := by
  match input with
  | [] => simp [Ix.unpack] at h
  | tag :: rest =>
    have htag : tag < 256 := hb tag (by simp)
    have hrest : ∀ b ∈ rest, b < 256 := fun b hbm => hb b (by simp [hbm])
    simp only [Ix.unpack] at h
    split_ifs at h with h0 h1 hre h2
    · subst h0
      cases hra : readLe 32 rest with
      | error e => rw [hra] at h; cases h
      | ok p =>
        obtain ⟨a, r1⟩ := p
        rw [hra] at h
        dsimp only at h
        obtain ⟨ha, hra2, hr1⟩ := readLe_ok hrest hra
        cases hrd : readLe 1 r1 with
        | error e => rw [hrd] at h; cases h
        | ok p =>
          obtain ⟨d, r2⟩ := p
          rw [hrd] at h
          dsimp only at h
          obtain ⟨hd, hrd2, hr2⟩ := readLe_ok hr1 hrd
          cases hrb : readLe 1 r2 with
          | error e => rw [hrb] at h; cases h
          | ok p =>
            obtain ⟨b, r3⟩ := p
            rw [hrb] at h
            dsimp only at h
            obtain ⟨hbv, hrb2, hr3⟩ := readLe_ok hr2 hrb
            split_ifs at h with hr3e
            cases h
            subst hr3e
            refine ⟨⟨ha, by simpa using hd, by simpa using hbv⟩, ?_⟩
            simp [Ix.pack, hra2, hrd2, hrb2]
    · subst h1
      subst hre
      cases h
      exact ⟨trivial, rfl⟩
    · subst h2
      cases hra : readLe 8 rest with
      | error e => rw [hra] at h; cases h
      | ok p =>
        obtain ⟨amt, r1⟩ := p
        rw [hra] at h
        dsimp only at h
        obtain ⟨hamt, hra2, hr1⟩ := readLe_ok hrest hra
        split_ifs at h with hr1e
        cases h
        subst hr1e
        refine ⟨?_, ?_⟩
        · show amt < 2 ^ 64
          have : (256 : Nat) ^ 8 = 2 ^ 64 := by norm_num
          omega
        · simp [Ix.pack, hra2]

/-- Decoding only ever fails with `InvalidInstructionData`. -/
theorem ix_unpack_error_kind {input : List Nat} {e : ProgramError}
    (h : Ix.unpack input = .error e) : e = .InvalidInstructionData := by
  match input with
  | [] => simp [Ix.unpack] at h; exact h.symm
  | tag :: rest =>
    simp only [Ix.unpack] at h
    split_ifs at h with h0 h1 hre h2
    · cases hra : readLe 32 rest with
      | error e2 =>
        rw [hra] at h
        dsimp only at h
        cases h
        exact readLe_error hra
      | ok p =>
        obtain ⟨a, r1⟩ := p
        rw [hra] at h
        dsimp only at h
        cases hrd : readLe 1 r1 with
        | error e2 =>
          rw [hrd] at h
          dsimp only at h
          cases h
          exact readLe_error hrd
        | ok p =>
          obtain ⟨d, r2⟩ := p
          rw [hrd] at h
          dsimp only at h
          cases hrb : readLe 1 r2 with
          | error e2 =>
            rw [hrb] at h
            dsimp only at h
            cases h
            exact readLe_error hrb
          | ok p =>
            obtain ⟨b, r3⟩ := p
            rw [hrb] at h
            dsimp only at h
            split_ifs at h
            cases h
            rfl
    · cases h; rfl
    · cases hra : readLe 8 rest with
      | error e2 =>
        rw [hra] at h
        dsimp only at h
        cases h
        exact readLe_error hra
      | ok p =>
        obtain ⟨amt, r1⟩ := p
        rw [hra] at h
        dsimp only at h
        split_ifs at h
        cases h
        rfl
    · cases h; rfl

set_option maxRecDepth 100000

/-- External-call oracle on which every forwarded call succeeds. -/
def extOk : Invoker := fun _ => none

/-- Derivation oracle on which no program address can be derived. -/
def cpaFail : Cpa := fun _ _ => none

/-- Derivation oracle returning the fixed address `k`. -/
def cpaAt (k : Nat) : Cpa := fun _ _ => some k

/-- Associated-token-address derivation returning the fixed address `k`. -/
def ataAt (k : Nat) : AtaDerive := fun _ _ _ => k

/-- A mint handle at key 11 holding well-formed mint state with the given
decimals. -/
def mintAcc (decimals : Nat) : AccountInfo :=
  { key := 11, is_signer := false, is_writable := false,
    owner := spl_token_id, data := mkMintData 7 decimals }

/-- An owner handle at key 22, signing. -/
def ownerAcc : AccountInfo :=
  { key := 22, is_signer := true, is_writable := false, owner := 0, data := [] }

/-- A token-account handle at key 33 whose state links mint 11 and
owner 22. -/
def ataAcc : AccountInfo :=
  { key := 33, is_signer := false, is_writable := true,
    owner := spl_token_id, data := mkAtaData 11 22 }

/-- Like `ataAcc` but whose decoded mint-link (99) differs from the mint
handle key 11. -/
def ataAccWrongMint : AccountInfo :=
  { key := 33, is_signer := false, is_writable := true,
    owner := spl_token_id, data := mkAtaData 99 22 }

/-- A signing, writable payer handle at key 44. -/
def payerAcc : AccountInfo :=
  { key := 44, is_signer := true, is_writable := true, owner := 0, data := [] }

/-- Like `payerAcc` but not signing. -/
def payerNoSig : AccountInfo :=
  { key := 44, is_signer := false, is_writable := true, owner := 0, data := [] }

/-- A writable mint handle at key 55 with empty data. -/
def mintPda : AccountInfo :=
  { key := 55, is_signer := false, is_writable := true, owner := 0, data := [] }

/-- The system-program handle. -/
def sysAcc : AccountInfo :=
  { key := 66, is_signer := false, is_writable := false, owner := 0, data := [] }

/-- The token-program handle. -/
def tokAcc : AccountInfo :=
  { key := spl_token_id, is_signer := false, is_writable := false,
    owner := 0, data := [] }

/-- Handle like `mintAcc 6` but with a different owning program (not spl-token). -/
def mintAccAlien : AccountInfo :=
  { key := 11, is_signer := false, is_writable := false,
    owner := 12345, data := mkMintData 7 6 }

/-- Handle like `ataAcc` but with a different owning program (not spl-token). -/
def ataAccAlien : AccountInfo :=
  { key := 33, is_signer := false, is_writable := true,
    owner := 54321, data := mkAtaData 11 22 }

/-- Every field of a handle except its writability flag. -/
def stripWritable (a : AccountInfo) : Nat × Bool × Nat × List Nat :=
  (a.key, a.is_signer, a.owner, a.data)

/-- Every field of a handle except its owning program. -/
def stripOwnerProg (a : AccountInfo) : Nat × Bool × Bool × List Nat :=
  (a.key, a.is_signer, a.is_writable, a.data)

/-- Restatement of `create_ata_for` over writability-stripped handles; used to
show the handler never consults `is_writable`. -/
def create_ata_for_view (ext : Invoker) (ataDerive : AtaDerive)
    (l : List (Nat × Bool × Nat × List Nat)) : HandlerResult :=
  match l with
  | (pkey, psig, _, _) :: (okey, _, _, _) :: (akey, _, _, _) ::
      (mkey, _, _, _) :: _ :: _ :: _ =>
    let expected_ata := ataDerive okey mkey spl_token_id
    if akey ≠ expected_ata then ([], some .InvalidArgument)
    else if !psig then ([], some .MissingRequiredSignature)
    else
      let c : ExtCall :=
        { shape := .createAtaIdempotent pkey okey mkey spl_token_id,
          seeds := [] }
      ([c], ext c)
  | _ => ([], some .NotEnoughAccountKeys)

theorem create_ata_for_eq_view (ext : Invoker) (ataDerive : AtaDerive)
    (accounts : List AccountInfo) :
    create_ata_for ext ataDerive accounts =
      create_ata_for_view ext ataDerive (accounts.map stripWritable) := by
  rcases accounts with _ | ⟨p, _ | ⟨o, _ | ⟨a, _ | ⟨m, _ | ⟨t, _ | ⟨s, r⟩⟩⟩⟩⟩⟩ <;> rfl

/-- Restatement of `burn_user_tokens` over handles stripped of their owning
program; used to show the handler never consults `owner`. -/
def burn_user_tokens_view (ext : Invoker)
    (l : List (Nat × Bool × Bool × List Nat)) (amount_ui : Nat) :
    HandlerResult :=
  match l with
  | (mkey, _, _, mdata) :: (okey, osig, _, _) :: (akey, _, _, adata) :: _ =>
    if !osig then ([], some .MissingRequiredSignature)
    else
      match SplAccount.unpack adata with
      | .error e => ([], some e)
      | .ok token_account =>
        if token_account.mint ≠ mkey ∨ token_account.owner ≠ okey then
          ([], some .InvalidAccountData)
        else
          match SplMint.unpack mdata with
          | .error e => ([], some e)
          | .ok mint =>
            match checked_mul_u64 amount_ui (pow10u64 mint.decimals) with
            | none => ([], some .InvalidArgument)
            | some amount_base =>
              let c : ExtCall :=
                { shape := .burnChecked spl_token_id akey mkey okey
                    amount_base mint.decimals,
                  seeds := [] }
              ([c], ext c)
  | _ => ([], some .NotEnoughAccountKeys)

theorem burn_user_tokens_eq_view (ext : Invoker)
    (accounts : List AccountInfo) (amount_ui : Nat) :
    burn_user_tokens ext accounts amount_ui =
      burn_user_tokens_view ext (accounts.map stripOwnerProg) amount_ui := by
  rcases accounts with _ | ⟨m, _ | ⟨o, _ | ⟨a, r⟩⟩⟩ <;> rfl

theorem splAccount_unpack_error_kinds {d : List Nat} {e : ProgramError}
    (h : SplAccount.unpack d = .error e) :
    e = .InvalidAccountData ∨ e = .UninitializedAccount := by
  unfold SplAccount.unpack at h
  split_ifs at h <;> cases h <;> simp

theorem splMint_unpack_error_kinds {d : List Nat} {e : ProgramError}
    (h : SplMint.unpack d = .error e) :
    e = .InvalidAccountData ∨ e = .UninitializedAccount := by
  unfold SplMint.unpack at h
  split_ifs at h <;> cases h <;> simp

/-- Any failure the burn handler raises before issuing its external call
is one of these kinds. -/
theorem burn_user_tokens_error_kinds (ext : Invoker)
    (accounts : List AccountInfo) (amount_ui : Nat) (e : ProgramError)
    (h : burn_user_tokens ext accounts amount_ui = ([], some e)) :
    e = .NotEnoughAccountKeys ∨ e = .MissingRequiredSignature ∨
    e = .InvalidAccountData ∨ e = .UninitializedAccount ∨
    e = .InvalidArgument := by
  rcases accounts with _ | ⟨m, _ | ⟨o, _ | ⟨a, rest⟩⟩⟩
  · simp [burn_user_tokens] at h
    simp [h.symm]
  · simp [burn_user_tokens] at h
    simp [h.symm]
  · simp [burn_user_tokens] at h
    simp [h.symm]
  · simp only [burn_user_tokens] at h
    split_ifs at h with hsg
    · simp at h
      simp [h.symm]
    · split at h
      · simp at h
        rcases splAccount_unpack_error_kinds (by assumption) with h2 | h2 <;>
          simp [h.symm, h2.symm] at *
      · split_ifs at h with hlk
        · simp at h
          simp [h.symm]
        · split at h
          · simp at h
            rcases splMint_unpack_error_kinds (by assumption) with h2 | h2 <;>
              simp [h.symm, h2.symm] at *
          · split at h
            · simp at h
              simp [h.symm]
            · simp at h

/-- C1: with recorded mint decimals 64 and `amount_ui = u64::MAX`, the
exact mathematical product `amount_ui * 10^64` exceeds `u64::MAX`, yet
`BurnUserTokens` does not fail with the `ArithmeticOverflow` failure:
`10u64.pow(64)` is an unchecked multiplication chain that wraps to `0`
(release-profile semantics), so `checked_mul` succeeds and a
`burn_checked` call for `0` base units is issued.  The claim (and the
spec's overflow-rejection requirement) is violated for `decimals ≥ 20`;
the code's `checked_mul` only guards the final multiplication, not the
power. -/
theorem c1_burn_overflow_wraps_for_large_decimals :
    burn_user_tokens extOk [mintAcc 64, ownerAcc, ataAcc] (2 ^ 64 - 1) =
      ([⟨.burnChecked spl_token_id 33 11 22 0 64, []⟩], none) ∧
    2 ^ 64 ≤ (2 ^ 64 - 1) * 10 ^ 64 := by
  refine ⟨by rfl, by norm_num⟩

/-- C2: any input that is not the exact borsh encoding of a well-formed
instruction — unknown discriminant, truncated payload, or trailing
bytes — is rejected by `Ix::unpack` with `InvalidInstructionData`, and
`process_instruction` returns that failure with no external call, for
every account list (hence without reading any account handle). -/
theorem c2_decode_fails_closed (input : List Nat)
    (hb : ∀ b ∈ input, b < 256)
    (hne : ∀ ix : Ix, ix.WF → Ix.pack ix ≠ input) :
    Ix.unpack input = .error .InvalidInstructionData ∧
    ∀ (ext : Invoker) (cpa : Cpa) (ataDerive : AtaDerive)
      (rent_min program_id : Nat) (accounts : List AccountInfo),
      process_instruction ext cpa ataDerive rent_min program_id accounts
          input = ([], some .InvalidInstructionData) := by
  have hu : Ix.unpack input = .error .InvalidInstructionData := by
    cases h : Ix.unpack input with
    | ok ix =>
      obtain ⟨hwf, hpk⟩ := Ix.unpack_ok hb h
      exact absurd hpk (hne ix hwf)
    | error e => rw [ix_unpack_error_kind h]
  refine ⟨hu, fun ext cpa ataDerive rent_min program_id accounts => ?_⟩
  simp [process_instruction, hu]

theorem c2_decode_fails_closed_witness :
    Ix.unpack [3] = .error .InvalidInstructionData ∧
    process_instruction extOk cpaFail (ataAt 0) 0 0 [mintAcc 6] [3] =
      ([], some .InvalidInstructionData) := by
  have h := c2_decode_fails_closed [3] (by decide)
    (fun ix hwf hpk => by cases ix <;> simp [Ix.pack] at hpk)
  exact ⟨h.1, h.2 extOk cpaFail (ataAt 0) 0 0 [mintAcc 6]⟩

/-- C3: with payer signing and the mint handle writable, if the supplied
mint key is not the derived program address for seeds
`[b"MINT", [bump]]` — including when no address can be derived at all —
`CreateAndInitMint` fails with `InvalidSeeds` (the code's encoding of
`AddressMismatch`/`InvalidDerivation`, produced by `map_err`, not by a
panic) and issues zero external calls. -/
theorem c3_mint_address_guard (ext : Invoker) (cpa : Cpa)
    (rent_min program_id mint_authority token_decimals bump : Nat)
    (payer token_mint sys tok : AccountInfo) (rest : List AccountInfo)
    (hs : payer.is_signer = true) (hw : token_mint.is_writable = true)
    (hbad : cpa [mintTag, [bump]] program_id ≠ some token_mint.key) :
    create_and_init_mint ext cpa rent_min program_id
        (payer :: token_mint :: sys :: tok :: rest) mint_authority
        [mintTag, [bump]] token_decimals = ([], some .InvalidSeeds) := by
  cases hc : cpa [mintTag, [bump]] program_id with
  | none => simp [create_and_init_mint, hs, hw, hc]
  | some expected =>
    have hne : token_mint.key ≠ expected := fun he => hbad (by rw [hc, he])
    simp [create_and_init_mint, hs, hw, hc, hne]

theorem c3_mint_address_guard_witness :
    create_and_init_mint extOk (cpaAt 999) 5 0
        [payerAcc, mintPda, sysAcc, tokAcc] 7 [mintTag, [254]] 6 =
      ([], some .InvalidSeeds) :=
  c3_mint_address_guard extOk (cpaAt 999) 5 0 7 6 254
    payerAcc mintPda sysAcc tokAcc [] rfl rfl (by decide)

/-- C4: if the owner handle is not signer-flagged, `BurnUserTokens` fails
with `MissingRequiredSignature` and issues no external call, for all
other handle contents (in particular for undecodable holder-account and
mint data, showing the failure precedes both decodes). -/
theorem c4_burn_requires_owner_signature (ext : Invoker)
    (mint_account owner_account ata_token_acc : AccountInfo)
    (rest : List AccountInfo) (amount_ui : Nat)
    (h : owner_account.is_signer = false) :
    burn_user_tokens ext
        (mint_account :: owner_account :: ata_token_acc :: rest) amount_ui =
      ([], some .MissingRequiredSignature) := by
  simp [burn_user_tokens, h]

theorem c4_burn_requires_owner_signature_witness :
    burn_user_tokens extOk
        [{ key := 1, is_signer := false, is_writable := false, owner := 0,
           data := [] },
         { key := 2, is_signer := false, is_writable := false, owner := 0,
           data := [] },
         { key := 3, is_signer := false, is_writable := false, owner := 0,
           data := [] }] 5 = ([], some .MissingRequiredSignature) :=
  c4_burn_requires_owner_signature extOk _ _ _ [] 5 rfl

/-- C5: with the owner signing and the holder-account data decoding to a
token-account record, a mint-link or owner-link mismatch makes
`BurnUserTokens` fail with `InvalidAccountData` (the code's encoding of
`InconsistentState`) and issue no burn call. -/
theorem c5_burn_linkage_guard (ext : Invoker)
    (mint_account owner_account ata_token_acc : AccountInfo)
    (rest : List AccountInfo) (amount_ui : Nat) (token_account : SplAccount)
    (hs : owner_account.is_signer = true)
    (hd : SplAccount.unpack ata_token_acc.data = .ok token_account)
    (hmis : token_account.mint ≠ mint_account.key ∨
      token_account.owner ≠ owner_account.key) :
    burn_user_tokens ext
        (mint_account :: owner_account :: ata_token_acc :: rest) amount_ui =
      ([], some .InvalidAccountData) := by
  simp [burn_user_tokens, hs, hd, hmis]

theorem c5_burn_linkage_guard_witness :
    burn_user_tokens extOk [mintAcc 6, ownerAcc, ataAccWrongMint] 5 =
      ([], some .InvalidAccountData) :=
  c5_burn_linkage_guard extOk (mintAcc 6) ownerAcc ataAccWrongMint [] 5
    ⟨99, 22⟩ rfl (by rfl) (Or.inl (by decide))

/-- C6 counterexample: `BurnUserTokens` invoked with only three handles
(mint, owner, holder-account) — fewer than the four its documented
protocol requires — does not fail: it validates, converts 2 UI units at
6 decimals, and issues the burn call.  The handler never fetches the
documented fourth (token-program) handle, so the claim that each handler
fails when given fewer handles than its documented protocol requires is
false for `BurnUserTokens`. -/
theorem c6_counterexample_burn_succeeds_with_three_handles :
    burn_user_tokens extOk [mintAcc 6, ownerAcc, ataAcc] 2 =
      ([⟨.burnChecked spl_token_id 33 11 22 2000000 6, []⟩], none) := by
  rfl

/-- C6 (amended): `CreateAndInitMint` fails with `NotEnoughAccountKeys`
and no external call when supplied fewer than the 4 handles it fetches,
`CreateAtaFor` when fewer than 6, and `BurnUserTokens` when fewer
than 3 — not the documented 4: it never fetches the token-program
handle; and each handler's outcome and calls depend only on the handles
it fetches (the first 4, 6 and 3 respectively), so no handler reads
past the handles it declares needed. -/
theorem c6_handle_requirements (ext : Invoker) (cpa : Cpa)
    (ataDerive : AtaDerive)
    (rent_min program_id mint_authority token_decimals amount_ui : Nat)
    (mint_seeds : List (List Nat)) (accounts : List AccountInfo) :
    (accounts.length < 4 →
      create_and_init_mint ext cpa rent_min program_id accounts
        mint_authority mint_seeds token_decimals =
        ([], some .NotEnoughAccountKeys)) ∧
    (accounts.length < 6 →
      create_ata_for ext ataDerive accounts =
        ([], some .NotEnoughAccountKeys)) ∧
    (accounts.length < 3 →
      burn_user_tokens ext accounts amount_ui =
        ([], some .NotEnoughAccountKeys)) ∧
    create_and_init_mint ext cpa rent_min program_id (accounts.take 4)
        mint_authority mint_seeds token_decimals =
      create_and_init_mint ext cpa rent_min program_id accounts
        mint_authority mint_seeds token_decimals ∧
    create_ata_for ext ataDerive (accounts.take 6) =
      create_ata_for ext ataDerive accounts ∧
    burn_user_tokens ext (accounts.take 3) amount_ui =
      burn_user_tokens ext accounts amount_ui := by
  rcases accounts with _ | ⟨a1, _ | ⟨a2, _ | ⟨a3, _ | ⟨a4, _ | ⟨a5, _ | ⟨a6, r⟩⟩⟩⟩⟩⟩ <;>
    refine ⟨fun h => ?_, fun h => ?_, fun h => ?_, ?_, ?_, ?_⟩ <;>
    first
      | rfl
      | (simp at h; omega)
      | (simp at h)

theorem c6_handle_requirements_witness :
    create_and_init_mint extOk cpaFail 0 0 [mintAcc 6] 7 [mintTag, [254]] 6 =
      ([], some .NotEnoughAccountKeys) ∧
    create_ata_for extOk (ataAt 0) [mintAcc 6] =
      ([], some .NotEnoughAccountKeys) ∧
    burn_user_tokens extOk [mintAcc 6] 5 =
      ([], some .NotEnoughAccountKeys) := by
  have h := c6_handle_requirements extOk cpaFail (ataAt 0) 0 0 7 6 5
    [mintTag, [254]] [mintAcc 6]
  exact ⟨h.1 (by decide), h.2.1 (by decide), h.2.2.1 (by decide)⟩

/-- C7: `CreateAtaFor` first requires the supplied holder-account key to
equal the address derived from (owner key, mint key, spl-token identity)
— this check fires with `InvalidArgument` even when the payer is not a
signer, so it is evaluated before the signer check —, then requires the
payer signer; when both guards pass it issues exactly one external call,
of the idempotent-create shape, and its outcome is exactly the external
program's outcome on that call (this program performs no already-exists
check of its own). -/
theorem c7_create_ata_guard_order_and_call (ext : Invoker)
    (ataDerive : AtaDerive)
    (payer owner ata_acc token_mint tok sys : AccountInfo)
    (rest : List AccountInfo) :
    (ata_acc.key ≠ ataDerive owner.key token_mint.key spl_token_id →
      create_ata_for ext ataDerive
          (payer :: owner :: ata_acc :: token_mint :: tok :: sys :: rest) =
        ([], some .InvalidArgument)) ∧
    (ata_acc.key = ataDerive owner.key token_mint.key spl_token_id →
      payer.is_signer = false →
      create_ata_for ext ataDerive
          (payer :: owner :: ata_acc :: token_mint :: tok :: sys :: rest) =
        ([], some .MissingRequiredSignature)) ∧
    (ata_acc.key = ataDerive owner.key token_mint.key spl_token_id →
      payer.is_signer = true →
      create_ata_for ext ataDerive
          (payer :: owner :: ata_acc :: token_mint :: tok :: sys :: rest) =
        ([⟨.createAtaIdempotent payer.key owner.key token_mint.key
            spl_token_id, []⟩],
         ext ⟨.createAtaIdempotent payer.key owner.key token_mint.key
            spl_token_id, []⟩)) := by
  refine ⟨fun h1 => ?_, fun h1 h2 => ?_, fun h1 h2 => ?_⟩ <;>
    simp [create_ata_for, h1, *]

theorem c7_create_ata_guard_order_and_call_witness :
    create_ata_for extOk (ataAt 100)
        [payerAcc, ownerAcc, ataAcc, mintAcc 6, tokAcc, sysAcc] =
      ([], some .InvalidArgument) ∧
    create_ata_for extOk (ataAt 33)
        [payerNoSig, ownerAcc, ataAcc, mintAcc 6, tokAcc, sysAcc] =
      ([], some .MissingRequiredSignature) ∧
    create_ata_for extOk (ataAt 33)
        [payerAcc, ownerAcc, ataAcc, mintAcc 6, tokAcc, sysAcc] =
      ([⟨.createAtaIdempotent 44 22 11 spl_token_id, []⟩], none) := by
  refine ⟨?_, ?_, ?_⟩
  · exact (c7_create_ata_guard_order_and_call extOk (ataAt 100)
      payerAcc ownerAcc ataAcc (mintAcc 6) tokAcc sysAcc []).1 (by decide)
  · exact (c7_create_ata_guard_order_and_call extOk (ataAt 33)
      payerNoSig ownerAcc ataAcc (mintAcc 6) tokAcc sysAcc []).2.1 rfl rfl
  · exact (c7_create_ata_guard_order_and_call extOk (ataAt 33)
      payerAcc ownerAcc ataAcc (mintAcc 6) tokAcc sysAcc []).2.2 rfl rfl

/-- C8: when every guard passes (payer signer, mint writable, mint key
equal to the address derived from seeds `[b"MINT", [bump]]`) and the
external program accepts the calls, `CreateAndInitMint` issues exactly
two external calls in order: a `create_account` allocation of exactly
`Mint::LEN` (82) bytes funded by the payer, owned by the spl-token
identity, at the mint key, signed with the seeds `[b"MINT", [bump]]`;
then an `initialize_mint2` (`initMint2`) setting the payload's mint
authority and decimals, carrying no seeds. -/
theorem c8_create_mint_call_sequence (ext : Invoker) (cpa : Cpa)
    (rent_min program_id mint_authority token_decimals bump : Nat)
    (payer token_mint sys tok : AccountInfo) (rest : List AccountInfo)
    (hs : payer.is_signer = true) (hw : token_mint.is_writable = true)
    (hd : cpa [mintTag, [bump]] program_id = some token_mint.key)
    (hext : ∀ c, ext c = none) :
    create_and_init_mint ext cpa rent_min program_id
        (payer :: token_mint :: sys :: tok :: rest) mint_authority
        [mintTag, [bump]] token_decimals =
      ([⟨.createAccount payer.key token_mint.key rent_min splMintLen
          spl_token_id, [mintTag, [bump]]⟩,
        ⟨.initMint2 spl_token_id token_mint.key mint_authority
          token_decimals, []⟩], none) := by
  simp [create_and_init_mint, hs, hw, hd, hext]

theorem c8_create_mint_call_sequence_witness :
    create_and_init_mint extOk (cpaAt 55) 5 0
        [payerAcc, mintPda, sysAcc, tokAcc] 7 [mintTag, [254]] 6 =
      ([⟨.createAccount 44 55 5 splMintLen spl_token_id, [mintTag, [254]]⟩,
        ⟨.initMint2 spl_token_id 55 7 6, []⟩], none) :=
  c8_create_mint_call_sequence extOk (cpaAt 55) 5 0 7 6 254
    payerAcc mintPda sysAcc tokAcc [] rfl rfl rfl (fun _ => rfl)

/-- C9: the outcome and external call of `CreateAtaFor` are independent
of the `is_writable` flags of every supplied handle: two invocations
whose handle lists agree on everything but writability produce identical
results — in particular a read-only holder-account handle passes this
program's validation, although the documented account list marks it
writable. -/
theorem c9_create_ata_ignores_writability (ext : Invoker)
    (ataDerive : AtaDerive) (accs accs' : List AccountInfo)
    (h : accs.map stripWritable = accs'.map stripWritable) :
    create_ata_for ext ataDerive accs = create_ata_for ext ataDerive accs' := by
  rw [create_ata_for_eq_view, create_ata_for_eq_view, h]

theorem c9_create_ata_ignores_writability_witness :
    create_ata_for extOk (ataAt 33)
        [payerAcc, ownerAcc, ataAcc, mintAcc 6, tokAcc, sysAcc] =
      create_ata_for extOk (ataAt 33)
        [{ payerAcc with is_writable := false },
         ownerAcc,
         { ataAcc with is_writable := false },
         mintAcc 6, tokAcc, sysAcc] :=
  c9_create_ata_ignores_writability extOk (ataAt 33) _ _ rfl

/-- C10: `BurnUserTokens` never consults the owning program of any
handle: its result is invariant under arbitrary changes of every
handle's `owner` field; any failure it raises itself (before issuing a
call) is never `IncorrectProgramId` (the spec's `UnexpectedOwner`); and
handles whose data decode as well-formed token-account and mint layouts
with matching links pass validation and reach the burn call, whatever
their owning programs. -/
theorem c10_burn_ignores_owning_program (ext : Invoker) (amount_ui : Nat) :
    (∀ accs accs' : List AccountInfo,
      accs.map stripOwnerProg = accs'.map stripOwnerProg →
      burn_user_tokens ext accs amount_ui =
        burn_user_tokens ext accs' amount_ui) ∧
    (∀ (accs : List AccountInfo) (e : ProgramError),
      burn_user_tokens ext accs amount_ui = ([], some e) →
      e ≠ .IncorrectProgramId) ∧
    (∀ (mint_account owner_account ata_token_acc : AccountInfo)
        (rest : List AccountInfo) (token_account : SplAccount)
        (mint : SplMint),
      owner_account.is_signer = true →
      SplAccount.unpack ata_token_acc.data = .ok token_account →
      token_account.mint = mint_account.key →
      token_account.owner = owner_account.key →
      SplMint.unpack mint_account.data = .ok mint →
      amount_ui * pow10u64 mint.decimals < 2 ^ 64 →
      burn_user_tokens ext
          (mint_account :: owner_account :: ata_token_acc :: rest)
          amount_ui =
        ([⟨.burnChecked spl_token_id ata_token_acc.key mint_account.key
            owner_account.key (amount_ui * pow10u64 mint.decimals)
            mint.decimals, []⟩],
         ext ⟨.burnChecked spl_token_id ata_token_acc.key mint_account.key
            owner_account.key (amount_ui * pow10u64 mint.decimals)
            mint.decimals, []⟩)) := by
  refine ⟨fun accs accs' h => ?_, fun accs e h => ?_,
    fun m o a rest token_account mint hs hd hlm hlo hm hlt => ?_⟩
  · rw [burn_user_tokens_eq_view, burn_user_tokens_eq_view, h]
  · rcases burn_user_tokens_error_kinds ext accs amount_ui e h with
      h2 | h2 | h2 | h2 | h2 <;> simp [h2]
  · have hlt2 : amount_ui * pow10u64 mint.decimals < 18446744073709551616 := by
      simpa using hlt
    simp [burn_user_tokens, hs, hd, hlm, hlo, hm, checked_mul_u64, hlt2]

theorem c10_burn_ignores_owning_program_witness :
    burn_user_tokens extOk [mintAccAlien, ownerAcc, ataAccAlien] 2 =
      ([⟨.burnChecked spl_token_id 33 11 22 2000000 6, []⟩], none) ∧
    burn_user_tokens extOk [mintAcc 6, ownerAcc, ataAcc] 2 =
      burn_user_tokens extOk [mintAccAlien, ownerAcc, ataAccAlien] 2 := by
  have h := c10_burn_ignores_owning_program extOk 2
  refine ⟨?_, h.1 _ _ (by rfl)⟩
  have h3 := h.2.2 mintAccAlien ownerAcc ataAccAlien [] ⟨11, 22⟩ ⟨6⟩
    rfl (by rfl) rfl rfl (by rfl) (by decide)
  exact h3.trans (by rfl)

end TokenMints
